import Mathlib

/-!
Verification of the catalogue / cart / checkout core of `catalogue_browsing.py`.

The Python data model is embedded shallowly:
* a `Product` object becomes a `Product` structure (prices as `ℚ`, stock as `ℤ`
  since Python integers are unbounded);
* `ProductCatalogue.products` becomes a `List Product`;
* `Cart.items` (a Python `dict` keyed by UPC) becomes an insertion-ordered
  association list `List (String × Int)` whose keys are unique — `dict`
  assignment updates the existing entry in place and appends otherwise, which
  `dictSet` mirrors exactly;
* interactive `input()` values are passed in as `String` arguments, and
  `datetime.now()` is passed in as the `currentYear`/`currentMonth` arguments;
* code paths that raise `AttributeError` (dereferencing a product lookup that
  returned `None`) are made explicit with `Option` / a `crash` outcome.
-/

structure Product where
  upc : String
  name : String
  description : String
  price : ℚ
  category : String
  stock : Int
deriving DecidableEq

/-- `ProductCatalogue.find_product_by_upc` (line 66-67):
`next((p for p in self.products if p.upc == upc), None)` — first match or `None`. -/
def find_product_by_upc : List Product → String → Option Product
  | [], _ => none
  | p :: ps, upc => if p.upc = upc then some p else find_product_by_upc ps upc

/-- `ProductCatalogue.add_product` (lines 33-34): `self.products.append(product)` —
an unconditional append, with no duplicate check of its own. -/
def add_product (products : List Product) (product : Product) : List Product :=
  products ++ [product]

/-- Python `dict` lookup on `Cart.items` (`self.items[upc]`, `upc in self.items`). -/
def dictLookup : List (String × Int) → String → Option Int
  | [], _ => none
  | kv :: rest, k => if kv.1 = k then some kv.2 else dictLookup rest k

/-- Python `dict` assignment `self.items[k] = v`: overwrite the existing entry in
place (dict keys are unique, so at most one entry matches), append if absent. -/
def dictSet : List (String × Int) → String → Int → List (String × Int)
  | [], k, v => [(k, v)]
  | kv :: rest, k, v => if kv.1 = k then (k, v) :: rest else kv :: dictSet rest k v

/-- Python `del self.items[k]`: drop the entry for `k` (keys are unique, so
filtering all matches equals deleting the single entry). -/
def dictErase (items : List (String × Int)) (k : String) : List (String × Int) :=
  items.filter (fun kv => kv.1 ≠ k)

/-- Outcome reported by a `Cart` method (each Python method prints a message and
returns; the message printed identifies the outcome). -/
inductive CartMsg where
  | insufficientStock
  | added
  | removed
  | notInCart
  | productNotFound
  | updated
deriving DecidableEq

/-- `Cart.add_to_cart` (lines 133-145). The method receives the already-resolved
`Product` object (the menu layer resolves the UPC). Both stores go through
`dict` assignment (`self.items[product.upc] = ...`). -/
def add_to_cart (items : List (String × Int)) (product : Product) (quantity : Int) :
    CartMsg × List (String × Int) :=
  if product.stock < quantity then (.insufficientStock, items)
  else
    match dictLookup items product.upc with
    | some existing =>
      if product.stock < existing + quantity then (.insufficientStock, items)
      else (.added, dictSet items product.upc (existing + quantity))
    | none => (.added, dictSet items product.upc quantity)

/-- `Cart.remove_from_cart` (lines 147-152). -/
def remove_from_cart (items : List (String × Int)) (product_upc : String) :
    CartMsg × List (String × Int) :=
  match dictLookup items product_upc with
  | some _ => (.removed, dictErase items product_upc)
  | none => (.notInCart, items)

/-- `Cart.update_quantity` (lines 154-166). Note the catalogue lookup happens
before the `quantity <= 0` removal branch. -/
def update_quantity (items : List (String × Int)) (product_upc : String)
    (quantity : Int) (products : List Product) : CartMsg × List (String × Int) :=
  match find_product_by_upc products product_upc with
  | none => (.productNotFound, items)
  | some product =>
    if quantity ≤ 0 then remove_from_cart items product_upc
    else if product.stock < quantity then (.insufficientStock, items)
    else (.updated, dictSet items product_upc quantity)

/-- Python's `round(x, 2)` on the total. Python rounds the nearest-representable
float half to even; the claims below depend only on whether the total is
computed at all, never on the rounded value, so nearest-integer rounding of the
exact rational stands in for it. -/
def round2 (q : ℚ) : ℚ := ((q * 100 + 1 / 2).floor : ℚ) / 100

/-- The accumulation loop of `Cart.get_total_price` (lines 182-187). The Python
body runs `product = catalogue.find_product_by_upc(upc)` and then dereferences
`product.price` with no `None` check: a cart UPC with no matching product raises
`AttributeError`, which `none` represents here. -/
def get_total_price_aux : List (String × Int) → List Product → ℚ → Option ℚ
  | [], _, acc => some acc
  | (upc, qty) :: rest, products, acc =>
    match find_product_by_upc products upc with
    | none => none
    | some p => get_total_price_aux rest products (acc + p.price * qty)

/-- `Cart.get_total_price` (lines 182-187); `none` is the `AttributeError` crash. -/
def get_total_price (items : List (String × Int)) (products : List Product) : Option ℚ :=
  (get_total_price_aux items products 0).map round2

/-- Remove the separator characters from the card-number input:
`.replace("-", "").replace(" ", "")` (line 90). -/
def stripSep (s : String) : List Char :=
  s.toList.filter (fun c => decide (c ≠ '-') && decide (c ≠ ' '))

/-- Maximal runs of consecutive decimal digits, in order: the embedding of
`re.findall(r"[0-9]+", s)` (line 91). `cur` holds the current run reversed. -/
def digitRunsAux : List Char → List Char → List (List Char)
  | [], cur => if cur = [] then [] else [cur.reverse]
  | c :: rest, cur =>
    if c.isDigit then digitRunsAux rest (c :: cur)
    else if cur = [] then digitRunsAux rest []
    else cur.reverse :: digitRunsAux rest []

def digitRuns (l : List Char) : List (List Char) := digitRunsAux l []

/-- Card-number acceptance, lines 90-94: after stripping separators, `re.findall`
must return a non-empty list whose first run has exactly 16 digits
(`if not card_number or len(card_number[0]) != 16` rejects). -/
def card_number_ok (s : String) : Bool :=
  match digitRuns (stripSep s) with
  | [] => false
  | r :: _ => r.length == 16

/-- Python `str.strip()` on the expiry and security inputs: remove leading and
trailing whitespace. -/
def pyStrip (s : String) : List Char :=
  ((s.toList.dropWhile Char.isWhitespace).reverse.dropWhile Char.isWhitespace).reverse

/-- Python `str.isdigit()` on the inputs used here: non-empty and all decimal
digits (the exotic Unicode digit classes Python also accepts play no role for
the ASCII inputs this program reads). -/
def isPyDigit (l : List Char) : Bool :=
  !l.isEmpty && l.all Char.isDigit

/-- `int(s)` on a string of decimal digits. -/
def strToNat (l : List Char) : Nat :=
  l.foldl (fun a c => a * 10 + (c.toNat - 48)) 0

/-- The four raw strings the checkout reads with `input()` (lines 90, 96, 102, 115). -/
structure PaymentInput where
  cardNumber : String
  expiryMonth : String
  expiryYear : String
  securityCode : String
deriving DecidableEq

/-- The distinct outcomes of `CheckoutHandler.checkout`, identified by the message
printed before each `return False`, plus `success` (`return True`) and `crash`
(an uncaught `AttributeError` from dereferencing a missing product). -/
inductive CheckoutResult where
  | emptyCart
  | insufficientStock (name : String)
  | malformedCardNumber
  | malformedExpiryMonth
  | malformedExpiryYear
  | expiredCard
  | malformedSecurityCode
  | crash
  | success
deriving DecidableEq

/-- The stock-availability loop of `checkout` (lines 78-84): the first entry whose
UPC resolves (`if product:`) to a product with `stock < qty` aborts with that
product's name; entries whose UPC does not resolve are skipped. -/
def stockCheck : List (String × Int) → List Product → Option String
  | [], _ => none
  | (upc, qty) :: rest, products =>
    match find_product_by_upc products upc with
    | some p => if p.stock < qty then some p.name else stockCheck rest products
    | none => stockCheck rest products

/-- One step of the commit loop (lines 121-123): `product =
catalogue.find_product_by_upc(upc); product.stock -= qty` mutates the first
product in the list with that UPC. -/
def debit_first : List Product → String → Int → List Product
  | [], _, _ => []
  | p :: ps, upc, qty =>
    if p.upc = upc then { p with stock := p.stock - qty } :: ps
    else p :: debit_first ps upc qty

/-- The commit loop of `checkout` (lines 121-123). A cart UPC with no matching
product would raise `AttributeError` (`none`); `checkout` only reaches this loop
after `get_total_price` already resolved every UPC, so that branch is
unreachable there (`commitLoop_isSome_of_resolvable`). -/
def commitLoop : List (String × Int) → List Product → Option (List Product)
  | [], products => some products
  | (upc, qty) :: rest, products =>
    match find_product_by_upc products upc with
    | none => none
    | some _ => commitLoop rest (debit_first products upc qty)

/-- `CheckoutHandler.checkout` (lines 73-127), returning the outcome together
with the catalogue and cart state after the call. -/
def checkout (items : List (String × Int)) (products : List Product)
    (pay : PaymentInput) (currentYear currentMonth : Int) :
    CheckoutResult × List Product × List (String × Int) :=
  if items.isEmpty then (.emptyCart, products, items)
  else
    match stockCheck items products with
    | some name => (.insufficientStock name, products, items)
    | none =>
      match get_total_price items products with
      | none => (.crash, products, items)
      | some _total =>
        if !card_number_ok pay.cardNumber then (.malformedCardNumber, products, items)
        else
          if !(isPyDigit (pyStrip pay.expiryMonth) &&
               decide (1 ≤ strToNat (pyStrip pay.expiryMonth)) &&
               decide (strToNat (pyStrip pay.expiryMonth) ≤ 12)) then
            (.malformedExpiryMonth, products, items)
          else
            if !isPyDigit (pyStrip pay.expiryYear) then (.malformedExpiryYear, products, items)
            else
              if (strToNat (pyStrip pay.expiryYear) : Int) < currentYear ∨
                 ((strToNat (pyStrip pay.expiryYear) : Int) = currentYear ∧
                  (strToNat (pyStrip pay.expiryMonth) : Int) < currentMonth) then
                (.expiredCard, products, items)
              else
                if !(isPyDigit (pyStrip pay.securityCode) &&
                     decide ((pyStrip pay.securityCode).length = 3)) then
                  (.malformedSecurityCode, products, items)
                else
                  match commitLoop items products with
                  | none => (.crash, products, items)
                  | some products' => (.success, products', [])

/-- `Cart.load` (lines 193-199). The file system input is `none` when
`cart.json` does not exist, `some none` when it exists but `json.load` raises
`JSONDecodeError`, and `some (some m)` when it parses to the mapping `m`. The
parsed mapping is stored as-is, with no validation of its quantities. -/
def cart_load (items : List (String × Int))
    (file : Option (Option (List (String × Int)))) : List (String × Int) :=
  match file with
  | none => items
  | some none => []
  | some (some m) => m

/-- The UPC-uniqueness guard of `add_new_product` (lines 283-312): the duplicate
check happens in this menu-level function, via `find_product_by_upc`, before
`catalogue.add_product` is called with the freshly constructed product. The
interactive price/stock re-prompt loops deliver the already-parsed values. -/
inductive AddProductResult where
  | duplicate
  | added
deriving DecidableEq

def add_new_product (products : List Product) (upc name description : String)
    (price : ℚ) (category : String) (stock : Int) : AddProductResult × List Product :=
  match find_product_by_upc products upc with
  | some _ => (.duplicate, products)
  | none => (.added, add_product products (Product.mk upc name description price category stock))

/-- A session state: the `ProductCatalogue.products` list and the `Cart.items`
dict, the two entities the spec's invariants quantify over. -/
structure SessionState where
  products : List Product
  items : List (String × Int)
deriving DecidableEq

/-- The operations quantified over by the stock-non-negativity property:
`addItem` (the menu resolves the UPC and calls `Cart.add_to_cart` only when it
resolves), `setItemQuantity` (`Cart.update_quantity`) and `checkout`. -/
inductive Op where
  | addItem (pid : String) (q : Int)
  | setItemQuantity (pid : String) (q : Int)
  | doCheckout (pay : PaymentInput) (currentYear currentMonth : Int)

def runOp (s : SessionState) : Op → SessionState
  | .addItem pid q =>
    match find_product_by_upc s.products pid with
    | none => s
    | some p => { s with items := (add_to_cart s.items p q).2 }
  | .setItemQuantity pid q =>
    { s with items := (update_quantity s.items pid q s.products).2 }
  | .doCheckout pay cy cm =>
    let r := checkout s.items s.products pay cy cm
    { products := r.2.1, items := r.2.2 }

def runOps (s : SessionState) (ops : List Op) : SessionState :=
  ops.foldl runOp s

/-- The spec's cart invariant (§3): every stored entry has quantity ≥ 1. -/
def cart_wf (items : List (String × Int)) : Prop :=
  ∀ kv ∈ items, 1 ≤ kv.2

instance : DecidablePred cart_wf := fun items =>
  inferInstanceAs (Decidable (∀ kv ∈ items, 1 ≤ kv.2))

/-- Classifies `checkout` outcomes: `true` exactly for the validation-phase
failures (empty cart, insufficient stock, malformed or expired payment fields). -/
def isValidationFailure : CheckoutResult → Bool
  | .success => false
  | .crash => false
  | _ => true

/-- Modelled from the spec (claim C8's wording): the card number is accepted iff
the string, after stripping separator characters, consists of exactly 16 digits. -/
def claimCardOk (s : String) : Bool :=
  (stripSep s).length == 16 && (stripSep s).all Char.isDigit

/-- Modelled from the spec (claim C4's wording): the per-product effect of a
successful commit — the stock of each product whose identifier is in the cart
drops by exactly the cart quantity, every other field and product unchanged. -/
def specDebit (items : List (String × Int)) (p : Product) : Product :=
  match dictLookup items p.upc with
  | some q => { p with stock := p.stock - q }
  | none => p

/-- The sample laptop from `create_sample_catalogue` (line 203), used as the
concrete product in witnesses. -/
def sampleLap : Product :=
  ⟨"1111", "Laptop X1", "High performance laptop", 129999 / 100, "Computers", 5⟩

/-- A syntactically valid payment input for witnesses. -/
def payA : PaymentInput := ⟨"4111 1111 1111 1111", "12", "2030", "123"⟩

/-! ### Association-list (Python dict) lemmas -/

theorem dictLookup_eq_none_iff (items : List (String × Int)) (k : String) :
    dictLookup items k = none ↔ ∀ kv ∈ items, kv.1 ≠ k := by
  induction items with
  | nil => simp [dictLookup]
  | cons kv rest ih =>
    simp only [dictLookup, List.mem_cons]
    split
    · simp_all
    · simp_all

theorem dictLookup_mem {items : List (String × Int)} {k : String} {v : Int}
    (h : dictLookup items k = some v) : (k, v) ∈ items := by
  induction items with
  | nil => simp [dictLookup] at h
  | cons kv rest ih =>
    simp only [dictLookup] at h
    split at h
    · rename_i heq
      cases h
      cases kv
      simp_all
    · exact List.mem_cons_of_mem _ (ih h)

theorem dictSet_lookup_self (items : List (String × Int)) (k : String) (v : Int) :
    dictLookup (dictSet items k v) k = some v := by
  induction items with
  | nil => simp [dictSet, dictLookup]
  | cons kv rest ih =>
    simp only [dictSet]
    split
    · simp [dictLookup]
    · simp only [dictLookup]
      split
      · simp_all
      · exact ih

theorem dictSet_lookup_ne (items : List (String × Int)) (k : String) (v : Int)
    (k' : String) (h : k' ≠ k) :
    dictLookup (dictSet items k v) k' = dictLookup items k' := by
  induction items with
  | nil =>
    simp only [dictSet, dictLookup]
    rw [if_neg (show ¬k = k' from fun h' => h h'.symm)]
  | cons kv rest ih =>
    simp only [dictSet]
    split
    · rename_i heq
      simp only [dictLookup]
      rw [if_neg (fun h' => h h'.symm), if_neg (by rw [heq]; exact fun h' => h h'.symm)]
    · simp only [dictLookup]
      split
      · rfl
      · exact ih

theorem dictSet_mem {items : List (String × Int)} {k : String} {v : Int} :
    ∀ x ∈ dictSet items k v, x = (k, v) ∨ x ∈ items := by
  induction items with
  | nil => simp [dictSet]
  | cons kv rest ih =>
    simp only [dictSet]
    split
    · intro x hx
      rcases List.mem_cons.mp hx with h | h
      · exact Or.inl h
      · exact Or.inr (List.mem_cons_of_mem _ h)
    · intro x hx
      rcases List.mem_cons.mp hx with h | h
      · exact Or.inr (h ▸ List.mem_cons_self _ _)
      · rcases ih x h with h' | h'
        · exact Or.inl h'
        · exact Or.inr (List.mem_cons_of_mem _ h')

theorem dictSet_keys_some (items : List (String × Int)) (k : String) (v : Int)
    (h : (dictLookup items k).isSome) :
    (dictSet items k v).map Prod.fst = items.map Prod.fst := by
  induction items with
  | nil => simp [dictLookup] at h
  | cons kv rest ih =>
    simp only [dictSet]
    split
    · simp_all
    · simp only [dictLookup] at h
      rw [if_neg (by assumption)] at h
      simp [ih h]

theorem dictSet_keys_none (items : List (String × Int)) (k : String) (v : Int)
    (h : dictLookup items k = none) :
    (dictSet items k v).map Prod.fst = items.map Prod.fst ++ [k] := by
  induction items with
  | nil => simp [dictSet]
  | cons kv rest ih =>
    simp only [dictLookup] at h
    split at h
    · cases h
    · simp only [dictSet]
      rw [if_neg (by assumption)]
      simp [ih h]

theorem dictSet_keys_nodup (items : List (String × Int)) (k : String) (v : Int)
    (h : (items.map Prod.fst).Nodup) : ((dictSet items k v).map Prod.fst).Nodup := by
  cases hk : dictLookup items k with
  | some v' => rw [dictSet_keys_some items k v (by simp [hk])]; exact h
  | none =>
    rw [dictSet_keys_none items k v hk]
    rw [List.nodup_append]
    refine ⟨h, List.nodup_singleton k, ?_⟩
    intro x hx hx'
    simp only [List.mem_singleton] at hx'
    rcases List.mem_map.mp hx with ⟨kv, hkv, hfst⟩
    exact (dictLookup_eq_none_iff items k).mp hk kv hkv (by rw [hfst, hx'])

theorem dictErase_subset {items : List (String × Int)} {k : String} :
    ∀ x ∈ dictErase items k, x ∈ items :=
  fun x hx => List.mem_of_mem_filter hx

theorem dictErase_keys_nodup (items : List (String × Int)) (k : String)
    (h : (items.map Prod.fst).Nodup) : ((dictErase items k).map Prod.fst).Nodup :=
  ((List.filter_sublist items).map Prod.fst).nodup h

/-! ### Catalogue lookup lemmas -/

theorem find_product_some {products : List Product} {u : String} {p : Product}
    (h : find_product_by_upc products u = some p) : p ∈ products ∧ p.upc = u := by
  induction products with
  | nil => simp [find_product_by_upc] at h
  | cons q rest ih =>
    simp only [find_product_by_upc] at h
    split at h
    · cases h
      exact ⟨List.mem_cons_self _ _, by assumption⟩
    · exact ⟨List.mem_cons_of_mem _ (ih h).1, (ih h).2⟩

theorem find_product_eq_none_iff (products : List Product) (u : String) :
    find_product_by_upc products u = none ↔ ∀ p ∈ products, p.upc ≠ u := by
  induction products with
  | nil => simp [find_product_by_upc]
  | cons q rest ih =>
    simp only [find_product_by_upc, List.mem_cons]
    split
    · simp_all
    · simp_all

theorem find_product_isSome_iff (products : List Product) (u : String) :
    (find_product_by_upc products u).isSome ↔ u ∈ products.map Product.upc := by
  induction products with
  | nil => simp [find_product_by_upc]
  | cons q rest ih =>
    simp only [find_product_by_upc, List.map_cons, List.mem_cons]
    split
    · simp_all
    · rw [ih]
      rename_i hne
      constructor
      · exact fun h => Or.inr h
      · rintro (h | h)
        · exact absurd h.symm hne
        · exact h

/-! ### Commit-loop lemmas -/

theorem debit_first_map_upc (ps : List Product) (u : String) (q : Int) :
    (debit_first ps u q).map Product.upc = ps.map Product.upc := by
  induction ps with
  | nil => simp [debit_first]
  | cons p rest ih =>
    simp only [debit_first]
    split
    · simp_all
    · simp [ih]

theorem find_debit_first_ne (ps : List Product) (u u' : String) (q : Int)
    (h : u' ≠ u) :
    find_product_by_upc (debit_first ps u q) u' = find_product_by_upc ps u' := by
  induction ps with
  | nil => simp [debit_first]
  | cons p rest ih =>
    simp only [debit_first]
    split
    · rename_i heq
      simp only [find_product_by_upc]
      rw [if_neg (by simpa [heq] using fun h' => h h'.symm),
        if_neg (by rw [heq]; exact fun h' => h h'.symm)]
    · simp only [find_product_by_upc]
      split
      · rfl
      · exact ih

theorem debit_first_nonneg (ps : List Product) (u : String) (q : Int)
    (h0 : ∀ p ∈ ps, 0 ≤ p.stock)
    (h1 : ∀ p, find_product_by_upc ps u = some p → q ≤ p.stock) :
    ∀ p ∈ debit_first ps u q, 0 ≤ p.stock := by
  induction ps with
  | nil => simp [debit_first]
  | cons p rest ih =>
    simp only [debit_first]
    split
    · rename_i heq
      intro x hx
      rcases List.mem_cons.mp hx with h | h
      · subst h
        have := h1 p (by simp [find_product_by_upc, heq])
        simp only
        omega
      · exact h0 x (List.mem_cons_of_mem _ h)
    · rename_i hne
      intro x hx
      rcases List.mem_cons.mp hx with h | h
      · exact h ▸ h0 p (List.mem_cons_self _ _)
      · refine ih (fun y hy => h0 y (List.mem_cons_of_mem _ hy)) ?_ x h
        intro y hy
        exact h1 y (by simp only [find_product_by_upc]; rw [if_neg hne]; exact hy)

theorem map_upd_eq_self (ps : List Product) (u : String)
    (f : Product → Product) (h : ∀ p ∈ ps, p.upc ≠ u) :
    ps.map (fun p => if p.upc = u then f p else p) = ps := by
  induction ps with
  | nil => simp
  | cons p rest ih =>
    simp only [List.map_cons]
    rw [if_neg (h p (List.mem_cons_self _ _)),
      ih (fun y hy => h y (List.mem_cons_of_mem _ hy))]

theorem debit_first_eq_map (ps : List Product) (u : String) (q : Int)
    (h : (ps.map Product.upc).Nodup) :
    debit_first ps u q =
      ps.map (fun p => if p.upc = u then { p with stock := p.stock - q } else p) := by
  induction ps with
  | nil => simp [debit_first]
  | cons p rest ih =>
    simp only [List.map_cons, List.nodup_cons] at h
    simp only [debit_first, List.map_cons]
    split
    · rename_i heq
      have hrest : ∀ y ∈ rest, y.upc ≠ u := fun y hy hyu =>
        h.1 (by rw [heq, ← hyu]; exact List.mem_map_of_mem Product.upc hy)
      rw [map_upd_eq_self rest u _ hrest]
    · rename_i hne
      rw [ih h.2]

theorem stockCheck_eq_none_iff (items : List (String × Int)) (ps : List Product) :
    stockCheck items ps = none ↔
      ∀ kv ∈ items, ∀ p, find_product_by_upc ps kv.1 = some p → kv.2 ≤ p.stock := by
  induction items with
  | nil => simp [stockCheck]
  | cons kv rest ih =>
    obtain ⟨u, q⟩ := kv
    cases hf : find_product_by_upc ps u with
    | none =>
      simp only [stockCheck, hf, List.mem_cons]
      rw [ih]
      constructor
      · rintro h kv' (rfl | h') p hp
        · simp only at hp
          rw [hf] at hp
          cases hp
        · exact h kv' h' p hp
      · intro h kv' h' p hp
        exact h kv' (Or.inr h') p hp
    | some p =>
      simp only [stockCheck, hf, List.mem_cons]
      by_cases hlt : p.stock < q
      · rw [if_pos hlt]
        constructor
        · intro h
          cases h
        · intro h
          have hq := h (u, q) (Or.inl rfl) p hf
          omega
      · rw [if_neg hlt, ih]
        constructor
        · rintro h kv' (rfl | h') p' hp'
          · simp only at hp'
            rw [hf] at hp'
            cases hp'
            omega
          · exact h kv' h' p' hp'
        · intro h kv' h' p' hp'
          exact h kv' (Or.inr h') p' hp'

theorem get_total_price_aux_resolvable (items : List (String × Int))
    (ps : List Product) (acc t : ℚ)
    (h : get_total_price_aux items ps acc = some t) :
    ∀ kv ∈ items, (find_product_by_upc ps kv.1).isSome := by
  induction items generalizing acc with
  | nil => simp
  | cons kv rest ih =>
    obtain ⟨u, q⟩ := kv
    simp only [get_total_price_aux] at h
    cases hf : find_product_by_upc ps u with
    | none => rw [hf] at h; cases h
    | some p =>
      rw [hf] at h
      intro kv' hkv'
      rcases List.mem_cons.mp hkv' with h' | h'
      · subst h'
        simp [hf]
      · exact ih _ h kv' h'

theorem get_total_price_resolvable (items : List (String × Int)) (ps : List Product)
    (h : (get_total_price items ps).isSome) :
    ∀ kv ∈ items, (find_product_by_upc ps kv.1).isSome := by
  unfold get_total_price at h
  cases haux : get_total_price_aux items ps 0 with
  | none => rw [haux] at h; cases h
  | some t => exact get_total_price_aux_resolvable items ps 0 t haux

theorem commitLoop_isSome_of_resolvable (items : List (String × Int)) (ps : List Product)
    (h : ∀ kv ∈ items, (find_product_by_upc ps kv.1).isSome) :
    ∃ ps', commitLoop items ps = some ps' := by
  induction items generalizing ps with
  | nil => exact ⟨ps, rfl⟩
  | cons kv rest ih =>
    obtain ⟨u, q⟩ := kv
    have hu := h (u, q) (List.mem_cons_self _ _)
    cases hf : find_product_by_upc ps u with
    | none => rw [hf] at hu; cases hu
    | some p =>
      simp only [commitLoop, hf]
      refine ih (debit_first ps u q) ?_
      intro kv' hkv'
      rw [find_product_isSome_iff, debit_first_map_upc, ← find_product_isSome_iff]
      exact h kv' (List.mem_cons_of_mem _ hkv')

theorem commitLoop_nonneg (items : List (String × Int)) (ps ps' : List Product)
    (hnk : (items.map Prod.fst).Nodup)
    (h0 : ∀ p ∈ ps, 0 ≤ p.stock)
    (hsc : ∀ kv ∈ items, ∀ p, find_product_by_upc ps kv.1 = some p → kv.2 ≤ p.stock)
    (hc : commitLoop items ps = some ps') :
    ∀ p ∈ ps', 0 ≤ p.stock := by
  induction items generalizing ps with
  | nil =>
    simp only [commitLoop] at hc
    cases hc
    exact h0
  | cons kv rest ih =>
    obtain ⟨u, q⟩ := kv
    simp only [commitLoop] at hc
    cases hf : find_product_by_upc ps u with
    | none => rw [hf] at hc; cases hc
    | some p =>
      rw [hf] at hc
      simp only [List.map_cons, List.nodup_cons] at hnk
      refine ih (debit_first ps u q) hnk.2 ?_ ?_ hc
      · exact debit_first_nonneg ps u q h0
          (fun p' hp' => hsc (u, q) (List.mem_cons_self _ _) p' hp')
      · intro kv' hkv' p' hp'
        have hne : kv'.1 ≠ u := by
          intro heq
          exact hnk.1 (heq ▸ List.mem_map_of_mem Prod.fst hkv')
        rw [find_debit_first_ne ps u kv'.1 q hne] at hp'
        exact hsc kv' (List.mem_cons_of_mem _ hkv') p' hp'

theorem commitLoop_eq_map (items : List (String × Int)) (ps ps' : List Product)
    (hnk : (items.map Prod.fst).Nodup)
    (hup : (ps.map Product.upc).Nodup)
    (hc : commitLoop items ps = some ps') :
    ps' = ps.map (specDebit items) := by
  induction items generalizing ps with
  | nil =>
    simp only [commitLoop] at hc
    cases hc
    have hmap : ∀ qs : List Product, List.map (specDebit []) qs = qs := by
      intro qs
      induction qs with
      | nil => rfl
      | cons a l ihl =>
        rw [List.map_cons, ihl]
        show specDebit [] a :: l = a :: l
        rfl
    exact (hmap _).symm
  | cons kv rest ih =>
    obtain ⟨u, q⟩ := kv
    simp only [commitLoop] at hc
    cases hf : find_product_by_upc ps u with
    | none => rw [hf] at hc; cases hc
    | some p =>
      rw [hf] at hc
      simp only at hc
      simp only [List.map_cons, List.nodup_cons] at hnk
      have hrec := ih (debit_first ps u q) hnk.2
        (by rw [debit_first_map_upc]; exact hup) hc
      rw [hrec, debit_first_eq_map ps u q hup, List.map_map]
      refine List.map_congr_left ?_
      intro x hx
      simp only [Function.comp]
      by_cases hxu : x.upc = u
      · have hrest : dictLookup rest u = none := by
          rw [dictLookup_eq_none_iff]
          intro kv' hkv' heq
          exact hnk.1 (heq ▸ List.mem_map_of_mem Prod.fst hkv')
        simp [specDebit, dictLookup, hxu, hrest]
      · simp [specDebit, dictLookup, hxu, Ne.symm hxu]

/-! ### Checkout case analysis -/

theorem checkout_cases (items : List (String × Int)) (ps : List Product)
    (pay : PaymentInput) (cy cm : Int) :
    (checkout items ps pay cy cm = ((checkout items ps pay cy cm).1, ps, items) ∧
      (checkout items ps pay cy cm).1 ≠ .success) ∨
    (∃ ps', items ≠ [] ∧ stockCheck items ps = none ∧
      (get_total_price items ps).isSome ∧ commitLoop items ps = some ps' ∧
      checkout items ps pay cy cm = (.success, ps', [])) := by
  unfold checkout
  split
  · exact Or.inl ⟨rfl, fun h => nomatch h⟩
  · rename_i hemp
    split
    · exact Or.inl ⟨rfl, fun h => nomatch h⟩
    · rename_i hsc
      split
      · exact Or.inl ⟨rfl, fun h => nomatch h⟩
      · rename_i t htot
        split
        · exact Or.inl ⟨rfl, fun h => nomatch h⟩
        · split
          · exact Or.inl ⟨rfl, fun h => nomatch h⟩
          · split
            · exact Or.inl ⟨rfl, fun h => nomatch h⟩
            · split
              · exact Or.inl ⟨rfl, fun h => nomatch h⟩
              · split
                · exact Or.inl ⟨rfl, fun h => nomatch h⟩
                · split
                  · exact Or.inl ⟨rfl, fun h => nomatch h⟩
                  · rename_i ps' hcl
                    refine Or.inr ⟨ps', ?_, hsc, ?_, hcl, rfl⟩
                    · intro h
                      subst h
                      simp at hemp
                    · rw [htot]
                      rfl

theorem checkout_not_success (items : List (String × Int)) (ps : List Product)
    (pay : PaymentInput) (cy cm : Int)
    (h : (checkout items ps pay cy cm).1 ≠ .success) :
    (checkout items ps pay cy cm).2.1 = ps ∧
      (checkout items ps pay cy cm).2.2 = items := by
  rcases checkout_cases items ps pay cy cm with ⟨heq, _⟩ | ⟨ps', _, _, _, _, heq⟩
  · exact ⟨by rw [heq], by rw [heq]⟩
  · exact absurd (by rw [heq]) h

theorem checkout_success_elim (items : List (String × Int)) (ps : List Product)
    (pay : PaymentInput) (cy cm : Int)
    (h : (checkout items ps pay cy cm).1 = .success) :
    items ≠ [] ∧ stockCheck items ps = none ∧ (get_total_price items ps).isSome ∧
      commitLoop items ps = some ((checkout items ps pay cy cm).2.1) ∧
      (checkout items ps pay cy cm).2.2 = [] := by
  rcases checkout_cases items ps pay cy cm with ⟨heq, hne⟩ | ⟨ps', h1, h2, h3, h4, heq⟩
  · exact absurd h hne
  · refine ⟨h1, h2, h3, ?_, by rw [heq]⟩
    rw [heq]
    exact h4

/-! ### Cart invariant preservation -/

theorem cart_wf_dictSet (items : List (String × Int)) (k : String) (v : Int)
    (hwf : cart_wf items) (hv : 1 ≤ v) : cart_wf (dictSet items k v) := by
  intro kv hkv
  rcases dictSet_mem kv hkv with rfl | h
  · exact hv
  · exact hwf kv h

theorem cart_wf_dictErase (items : List (String × Int)) (k : String)
    (hwf : cart_wf items) : cart_wf (dictErase items k) :=
  fun kv hkv => hwf kv (dictErase_subset kv hkv)

theorem cart_wf_add_to_cart (items : List (String × Int)) (p : Product) (q : Int)
    (hwf : cart_wf items) (hq : 1 ≤ q) : cart_wf (add_to_cart items p q).2 := by
  unfold add_to_cart
  split
  · exact hwf
  · split
    · rename_i existing hl
      split
      · exact hwf
      · refine cart_wf_dictSet items p.upc (existing + q) hwf ?_
        have := hwf (p.upc, existing) (dictLookup_mem hl)
        simp only at this
        omega
    · exact cart_wf_dictSet items p.upc q hwf hq

theorem cart_wf_remove_from_cart (items : List (String × Int)) (u : String)
    (hwf : cart_wf items) : cart_wf (remove_from_cart items u).2 := by
  unfold remove_from_cart
  split
  · exact cart_wf_dictErase items u hwf
  · exact hwf

theorem cart_wf_update_quantity (items : List (String × Int)) (u : String)
    (q : Int) (ps : List Product) (hwf : cart_wf items) :
    cart_wf (update_quantity items u q ps).2 := by
  unfold update_quantity
  split
  · exact hwf
  · split
    · exact cart_wf_remove_from_cart items u hwf
    · split
      · exact hwf
      · rename_i hq _
        exact cart_wf_dictSet items u q hwf (by omega)

theorem keys_nodup_add_to_cart (items : List (String × Int)) (p : Product) (q : Int)
    (h : (items.map Prod.fst).Nodup) :
    (((add_to_cart items p q).2).map Prod.fst).Nodup := by
  unfold add_to_cart
  split
  · exact h
  · split
    · split
      · exact h
      · exact dictSet_keys_nodup items p.upc _ h
    · exact dictSet_keys_nodup items p.upc q h

theorem keys_nodup_remove_from_cart (items : List (String × Int)) (u : String)
    (h : (items.map Prod.fst).Nodup) :
    (((remove_from_cart items u).2).map Prod.fst).Nodup := by
  unfold remove_from_cart
  split
  · exact dictErase_keys_nodup items u h
  · exact h

theorem keys_nodup_update_quantity (items : List (String × Int)) (u : String)
    (q : Int) (ps : List Product) (h : (items.map Prod.fst).Nodup) :
    (((update_quantity items u q ps).2).map Prod.fst).Nodup := by
  unfold update_quantity
  split
  · exact h
  · split
    · exact keys_nodup_remove_from_cart items u h
    · split
      · exact h
      · exact dictSet_keys_nodup items u q h

/-! ### Card-number run characterization -/

theorem digitRunsAux_head_ne_nil (l cur : List Char) (h : cur ≠ []) :
    (digitRunsAux l cur).headD [] = cur.reverse ++ l.takeWhile Char.isDigit := by
  induction l generalizing cur with
  | nil => simp [digitRunsAux, h]
  | cons c rest ih =>
    by_cases hd : c.isDigit = true
    · have h1 : digitRunsAux (c :: rest) cur = digitRunsAux rest (c :: cur) := by
        simp [digitRunsAux, hd]
      rw [h1, ih (c :: cur) (by simp)]
      simp [List.takeWhile_cons, hd]
    · have h1 : digitRunsAux (c :: rest) cur = cur.reverse :: digitRunsAux rest [] := by
        simp [digitRunsAux, hd, h]
      rw [h1]
      simp [List.takeWhile_cons, hd]

theorem digitRuns_head (l : List Char) :
    (digitRuns l).headD [] = (l.dropWhile (fun c => !c.isDigit)).takeWhile Char.isDigit := by
  induction l with
  | nil => rfl
  | cons c rest ih =>
    by_cases hd : c.isDigit = true
    · have h1 : digitRuns (c :: rest) = digitRunsAux rest [c] := by
        simp [digitRuns, digitRunsAux, hd]
      rw [h1, digitRunsAux_head_ne_nil rest [c] (by simp)]
      simp [List.dropWhile_cons, List.takeWhile_cons, hd]
    · have h1 : digitRuns (c :: rest) = digitRuns rest := by
        simp [digitRuns, digitRunsAux, hd]
      rw [h1, ih]
      simp [List.dropWhile_cons, hd]

theorem card_number_ok_eq_headD (s : String) :
    card_number_ok s = (((digitRuns (stripSep s)).headD []).length == 16) := by
  unfold card_number_ok
  cases h : digitRuns (stripSep s) with
  | nil => simp
  | cons r rs => simp

/-! ### Claim theorems -/

/-- C1: Checkout atomicity — for every catalogue state, cart state and payment
input, if `checkout` reports a validation-phase failure (empty cart,
insufficient stock, malformed card number, malformed expiry month or year,
expired card, or malformed security code), then the catalogue (every product's
fields, including stock) and the cart entry mapping after the call equal their
state before the call. -/
theorem checkout_validation_atomic (items : List (String × Int))
    (products : List Product) (pay : PaymentInput) (currentYear currentMonth : Int)
    (h : isValidationFailure (checkout items products pay currentYear currentMonth).1 = true) :
    (checkout items products pay currentYear currentMonth).2.1 = products ∧
      (checkout items products pay currentYear currentMonth).2.2 = items := by
  refine checkout_not_success items products pay currentYear currentMonth ?_
  intro hs
  rw [hs] at h
  cases h

/-- Witness for C1: a concrete validation failure (empty cart) leaves the
catalogue and cart untouched. -/
theorem checkout_validation_atomic_witness :
    (checkout [] [sampleLap] payA 2026 10).2.1 = [sampleLap] ∧
      (checkout [] [sampleLap] payA 2026 10).2.2 = [] :=
  checkout_validation_atomic [] [sampleLap] payA 2026 10 (by decide)

/-- C2 (evaluation at the failing input): with catalogue `[sampleLap]` and cart
`{"9999": 1}`, the cart UPC resolves to no product. The claim says checkout
must abort with InsufficientStock; instead the stock-check loop's `if product:`
guard skips the entry (third conjunct: the loop reports nothing), and the call
then crashes with AttributeError inside `get_total_price` — the outcome is
`crash`, which is not a validation failure at all. -/
theorem checkout_missing_product_not_insufficient :
    (checkout [("9999", 1)] [sampleLap] payA 2026 10).1 = .crash ∧
      isValidationFailure (checkout [("9999", 1)] [sampleLap] payA 2026 10).1 = false ∧
      stockCheck [("9999", 1)] [sampleLap] = none := by
  refine ⟨?_, ?_, ?_⟩ <;> decide

/-- Step preservation for C3: one `addItem`/`setItemQuantity`/`checkout`
operation keeps every stock non-negative and the cart keys duplicate-free. -/
theorem runOp_preserves (s : SessionState) (op : Op)
    (h0 : ∀ p ∈ s.products, 0 ≤ p.stock)
    (h1 : (s.items.map Prod.fst).Nodup) :
    (∀ p ∈ (runOp s op).products, 0 ≤ p.stock) ∧
      (((runOp s op).items).map Prod.fst).Nodup := by
  cases op with
  | addItem pid q =>
    simp only [runOp]
    cases hf : find_product_by_upc s.products pid with
    | none => exact ⟨h0, h1⟩
    | some p => exact ⟨h0, keys_nodup_add_to_cart s.items p q h1⟩
  | setItemQuantity pid q =>
    exact ⟨h0, keys_nodup_update_quantity s.items pid q s.products h1⟩
  | doCheckout pay cy cm =>
    by_cases hs : (checkout s.items s.products pay cy cm).1 = .success
    · obtain ⟨hne, hsc, htot, hcl, hcart⟩ :=
        checkout_success_elim s.items s.products pay cy cm hs
      constructor
      · exact commitLoop_nonneg s.items s.products _ h1 h0
          ((stockCheck_eq_none_iff s.items s.products).mp hsc) hcl
      · show (((checkout s.items s.products pay cy cm).2.2).map Prod.fst).Nodup
        rw [hcart]
        simp
    · obtain ⟨hp, hc⟩ := checkout_not_success s.items s.products pay cy cm hs
      constructor
      · show ∀ p ∈ (checkout s.items s.products pay cy cm).2.1, 0 ≤ p.stock
        rw [hp]
        exact h0
      · show (((checkout s.items s.products pay cy cm).2.2).map Prod.fst).Nodup
        rw [hc]
        exact h1

theorem runOps_preserves (init : SessionState) (ops : List Op)
    (h0 : ∀ p ∈ init.products, 0 ≤ p.stock)
    (h1 : (init.items.map Prod.fst).Nodup) :
    (∀ p ∈ (runOps init ops).products, 0 ≤ p.stock) ∧
      (((runOps init ops).items).map Prod.fst).Nodup := by
  induction ops generalizing init with
  | nil => exact ⟨h0, h1⟩
  | cons op rest ih =>
    have h := runOp_preserves init op h0 h1
    exact ih (runOp init op) h.1 h.2

/-- C3: Stock non-negativity invariant — starting from a catalogue whose stocks
are all ≥ 0 (and a cart with duplicate-free keys, which a Python dict
guarantees), every finite sequence of `addItem`, `setItemQuantity` and
`checkout` operations keeps every `Product.stock` in the catalogue ≥ 0. -/
theorem stock_nonneg_invariant (init : SessionState) (ops : List Op)
    (h0 : ∀ p ∈ init.products, 0 ≤ p.stock)
    (h1 : (init.items.map Prod.fst).Nodup) :
    ∀ p ∈ (runOps init ops).products, 0 ≤ p.stock :=
  (runOps_preserves init ops h0 h1).1

/-- Witness for C3: after an add-to-cart operation on the sample catalogue the
laptop's stock is still ≥ 0. -/
theorem stock_nonneg_invariant_witness : (0 : Int) ≤ sampleLap.stock :=
  stock_nonneg_invariant ⟨[sampleLap], []⟩ [Op.addItem "1111" 2]
    (by decide) (by decide) sampleLap (List.mem_cons_self sampleLap [])

/-- C4: Successful commit effect — if `checkout` succeeds then (given the
catalogue's identifiers and the cart's keys are duplicate-free, the documented
invariants) the cart afterwards is empty and the new catalogue is exactly the
old one with each product whose identifier was in the cart debited by the cart
quantity, all other fields and products unchanged (`specDebit`). -/
theorem checkout_success_commit (items : List (String × Int))
    (products : List Product) (pay : PaymentInput) (currentYear currentMonth : Int)
    (hup : (products.map Product.upc).Nodup)
    (hnk : (items.map Prod.fst).Nodup)
    (h : (checkout items products pay currentYear currentMonth).1 = .success) :
    (checkout items products pay currentYear currentMonth).2.2 = [] ∧
      (checkout items products pay currentYear currentMonth).2.1 =
        products.map (specDebit items) := by
  obtain ⟨hne, hsc, htot, hcl, hcart⟩ :=
    checkout_success_elim items products pay currentYear currentMonth h
  exact ⟨hcart, commitLoop_eq_map items products _ hnk hup hcl⟩

set_option maxRecDepth 4000 in
/-- Witness for C4: a successful checkout of 2 laptops empties the cart and
debits the stock from 5 to 3. -/
theorem checkout_success_commit_witness :
    (checkout [("1111", 2)] [sampleLap] payA 2026 10).2.2 = [] ∧
      (checkout [("1111", 2)] [sampleLap] payA 2026 10).2.1 =
        [sampleLap].map (specDebit [("1111", 2)]) :=
  checkout_success_commit [("1111", 2)] [sampleLap] payA 2026 10
    (by decide) (by decide) (by decide)

/-- C5 (evaluation at the failing input): with an empty catalogue and cart
`{"1111": 1}`, `get_total_price` dereferences the `None` returned by
`find_product_by_upc` — an AttributeError, here `none` — and `checkout` on
the same state ends in the `crash` outcome instead of a recoverable one. -/
theorem get_total_price_crash_on_dangling_upc :
    get_total_price [("1111", 1)] [] = none ∧
      (checkout [("1111", 1)] [] payA 2026 10).1 = .crash := by
  exact ⟨rfl, rfl⟩

/-- C6: addItem additive semantics — for a product id that resolves in the
catalogue, a quantity q ≥ 1, and a well-formed cart, `add_to_cart` rejects with
InsufficientStock and leaves the cart unchanged exactly when (existing cart
quantity, or 0 if absent) + q exceeds the product's current stock; otherwise it
reports success and sets the stored quantity for that id to the sum, leaving
every other entry untouched. -/
theorem add_to_cart_additive (items : List (String × Int)) (products : List Product)
    (id : String) (p : Product) (q : Int)
    (hfind : find_product_by_upc products id = some p)
    (hq : 1 ≤ q) (hwf : cart_wf items) :
    (p.stock < (dictLookup items id).getD 0 + q →
      add_to_cart items p q = (.insufficientStock, items)) ∧
    (¬ p.stock < (dictLookup items id).getD 0 + q →
      (add_to_cart items p q).1 = .added ∧
      dictLookup (add_to_cart items p q).2 id = some ((dictLookup items id).getD 0 + q) ∧
      ∀ k, k ≠ id → dictLookup (add_to_cart items p q).2 k = dictLookup items k) := by
  obtain ⟨hmem, hupc⟩ := find_product_some hfind
  subst hupc
  cases hl : dictLookup items p.upc with
  | none =>
    simp only [hl, Option.getD_none]
    constructor
    · intro hlt
      rw [Int.zero_add] at hlt
      simp [add_to_cart, hl, hlt]
    · intro hge
      rw [Int.zero_add] at hge
      have h1 : add_to_cart items p q = (.added, dictSet items p.upc q) := by
        simp [add_to_cart, hl, hge]
      rw [h1]
      refine ⟨rfl, ?_, ?_⟩
      · rw [Int.zero_add]
        exact dictSet_lookup_self items p.upc q
      · intro k hk
        exact dictSet_lookup_ne items p.upc q k hk
  | some existing =>
    have hex : 1 ≤ existing := hwf (p.upc, existing) (dictLookup_mem hl)
    simp only [hl, Option.getD_some]
    constructor
    · intro hlt
      by_cases h1 : p.stock < q
      · simp [add_to_cart, h1]
      · simp [add_to_cart, h1, hl, hlt]
    · intro hge
      have h1 : ¬ p.stock < q := by omega
      have h2 : add_to_cart items p q = (.added, dictSet items p.upc (existing + q)) := by
        simp [add_to_cart, h1, hl, hge]
      rw [h2]
      refine ⟨rfl, dictSet_lookup_self items p.upc _, ?_⟩
      intro k hk
      exact dictSet_lookup_ne items p.upc _ k hk

/-- Witness for C6: with 3 laptops already in the cart and stock 5, adding 3
more is rejected (3 + 3 = 6 > 5) and the cart is unchanged — spec Scenario 1. -/
theorem add_to_cart_additive_witness :
    add_to_cart [("1111", 3)] sampleLap 3 = (.insufficientStock, [("1111", 3)]) :=
  (add_to_cart_additive [("1111", 3)] [sampleLap] "1111" sampleLap 3 rfl
    (by decide) (by decide)).1 (by decide)

/-- C7 (counterexample): with catalogue `[]` (the id resolves to no product) and
cart `{"1111": 2}`, `update_quantity` with quantity 0 reports "Product not
found" and leaves the entry in place, whereas `remove_from_cart` removes it —
so "quantity ≤ 0 behaves exactly like removeItem" fails as stated. -/
theorem update_quantity_zero_ne_remove :
    update_quantity [("1111", 2)] "1111" 0 [] ≠ remove_from_cart [("1111", 2)] "1111" ∧
      update_quantity [("1111", 2)] "1111" 0 [] = (.productNotFound, [("1111", 2)]) ∧
      remove_from_cart [("1111", 2)] "1111" = (.removed, []) := by
  refine ⟨?_, ?_, ?_⟩ <;> decide

/-- C7 (amended): `update_quantity` first resolves the id against the catalogue
and reports NotFound (cart unchanged) when it does not resolve, for every
quantity; when the id resolves, quantity ≤ 0 behaves exactly like
`remove_from_cart` (removing the entry, or reporting NotInCart if absent),
quantity ≥ 1 exceeding the product's stock is rejected with InsufficientStock
leaving the cart unchanged, and otherwise the stored quantity is overwritten
with q, every other entry untouched. -/
theorem update_quantity_semantics (items : List (String × Int)) (upc : String)
    (q : Int) (products : List Product) :
    (find_product_by_upc products upc = none →
      update_quantity items upc q products = (.productNotFound, items)) ∧
    (∀ p, find_product_by_upc products upc = some p → q ≤ 0 →
      update_quantity items upc q products = remove_from_cart items upc) ∧
    (∀ p, find_product_by_upc products upc = some p → 1 ≤ q → p.stock < q →
      update_quantity items upc q products = (.insufficientStock, items)) ∧
    (∀ p, find_product_by_upc products upc = some p → 1 ≤ q → ¬ p.stock < q →
      (update_quantity items upc q products).1 = .updated ∧
      dictLookup (update_quantity items upc q products).2 upc = some q ∧
      ∀ k, k ≠ upc → dictLookup (update_quantity items upc q products).2 k =
        dictLookup items k) := by
  refine ⟨?_, ?_, ?_, ?_⟩
  · intro h
    simp [update_quantity, h]
  · intro p hp hq
    simp [update_quantity, hp, hq]
  · intro p hp hq hlt
    have hq0 : ¬ q ≤ 0 := by omega
    simp [update_quantity, hp, hlt, hq0]
  · intro p hp hq hge
    have hq0 : ¬ q ≤ 0 := by omega
    have h1 : update_quantity items upc q products = (.updated, dictSet items upc q) := by
      simp [update_quantity, hp, hge, hq0]
    rw [h1]
    exact ⟨rfl, dictSet_lookup_self items upc q,
      fun k hk => dictSet_lookup_ne items upc q k hk⟩

/-- Witness for C7 (amended): with the id resolvable, quantity 0 does behave
exactly like removal. -/
theorem update_quantity_semantics_witness :
    update_quantity [("1111", 3)] "1111" 0 [sampleLap] =
      remove_from_cart [("1111", 3)] "1111" :=
  (update_quantity_semantics [("1111", 3)] "1111" 0 [sampleLap]).2.1
    sampleLap rfl (by decide)

/-- C8 (counterexample): the input "1111222233334444x" does not consist of 16
digits after separator stripping (`claimCardOk`, the claim's criterion, is
false), yet the code accepts it, because `re.findall` only surfaces the first
maximal digit run and its length is 16. -/
theorem card_number_first_run_counterexample :
    card_number_ok "1111222233334444x" = true ∧
      claimCardOk "1111222233334444x" = false := by
  refine ⟨?_, ?_⟩ <;> decide

/-- C8 (amended): the card number is accepted iff the stripped input's first
maximal run of consecutive digits has length exactly 16 (so trailing or leading
garbage around a 16-digit run is accepted too); and whenever the card number is
rejected and checkout reaches the payment step, it aborts with the
malformed-card outcome leaving catalogue and cart unchanged. -/
theorem card_number_first_run_semantics (pay : PaymentInput)
    (items : List (String × Int)) (products : List Product)
    (currentYear currentMonth : Int) :
    (card_number_ok pay.cardNumber = true ↔
      (((stripSep pay.cardNumber).dropWhile (fun c => !c.isDigit)).takeWhile
        Char.isDigit).length = 16) ∧
    (card_number_ok pay.cardNumber = false → items.isEmpty = false →
      stockCheck items products = none → (get_total_price items products).isSome →
      checkout items products pay currentYear currentMonth =
        (.malformedCardNumber, products, items)) := by
  constructor
  · rw [card_number_ok_eq_headD, digitRuns_head]
    exact beq_iff_eq
  · intro hcard hemp hsc htot
    obtain ⟨t, ht⟩ := Option.isSome_iff_exists.mp htot
    simp [checkout, hemp, hsc, ht, hcard]

/-- Witness for C8 (amended): a card number failing the first-run test makes
checkout abort with the malformed-card outcome, states unchanged. -/
theorem card_number_first_run_semantics_witness :
    checkout [("1111", 1)] [sampleLap] ⟨"12", "12", "2030", "123"⟩ 2026 10 =
      (.malformedCardNumber, [sampleLap], [("1111", 1)]) :=
  (card_number_first_run_semantics ⟨"12", "12", "2030", "123"⟩ [("1111", 1)]
    [sampleLap] 2026 10).2 (by decide) (by decide) (by decide) (by decide)

/-- C9 (counterexample): `ProductCatalogue.add_product` performs no duplicate
check of its own — called with an identifier already present it appends anyway,
changing the catalogue and breaking identifier uniqueness. -/
theorem add_product_appends_duplicate :
    add_product [sampleLap] sampleLap = [sampleLap, sampleLap] ∧
      add_product [sampleLap] sampleLap ≠ [sampleLap] ∧
      ¬ (([sampleLap, sampleLap].map Product.upc).Nodup) := by
  refine ⟨rfl, ?_, by decide⟩
  intro h
  exact absurd (congrArg List.length h) (by decide)

/-- C9 (amended): the duplicate-identifier rejection lives in the menu-level
`add_new_product` operation, not in `Catalogue.add_product` itself:
`add_new_product` rejects (catalogue unchanged) exactly when the identifier is
already present, otherwise appends the freshly built product — and therefore
preserves identifier uniqueness at every insertion that goes through it. -/
theorem add_new_product_unique (products : List Product)
    (upc name description : String) (price : ℚ) (category : String) (stock : Int) :
    ((∃ p, find_product_by_upc products upc = some p) →
      add_new_product products upc name description price category stock =
        (.duplicate, products)) ∧
    (find_product_by_upc products upc = none →
      add_new_product products upc name description price category stock =
        (.added, products ++ [Product.mk upc name description price category stock])) ∧
    (find_product_by_upc products upc = none → (products.map Product.upc).Nodup →
      ((products ++ [Product.mk upc name description price category stock]).map
        Product.upc).Nodup) := by
  refine ⟨?_, ?_, ?_⟩
  · rintro ⟨p, hp⟩
    simp [add_new_product, hp]
  · intro h
    simp [add_new_product, add_product, h]
  · intro h hn
    rw [List.map_append, List.nodup_append]
    refine ⟨hn, by simp, ?_⟩
    intro x hx hx'
    simp only [List.map_cons, List.map_nil, List.mem_singleton] at hx'
    rcases List.mem_map.mp hx with ⟨p, hp, hupc⟩
    exact (find_product_eq_none_iff products upc).mp h p hp (by rw [hupc, hx'])

/-- Witness for C9 (amended): adding a product whose UPC is already in the
catalogue through `add_new_product` is rejected and leaves it unchanged. -/
theorem add_new_product_unique_witness :
    add_new_product [sampleLap] "1111" "Laptop X1" "High performance laptop"
      (129999 / 100) "Computers" 5 = (.duplicate, [sampleLap]) :=
  (add_new_product_unique [sampleLap] "1111" "Laptop X1" "High performance laptop"
    (129999 / 100) "Computers" 5).1 ⟨sampleLap, rfl⟩

/-- C10 (counterexample): `Cart.load` stores the persisted mapping without any
validation, so a cart file holding quantity 0 produces a cart state with a
stored entry of quantity 0 — the entry is not removed. -/
theorem cart_load_stores_zero_quantity :
    cart_load [] (some (some [("1111", 0)])) = [("1111", 0)] ∧
      ¬ cart_wf (cart_load [] (some (some [("1111", 0)]))) := by
  exact ⟨rfl, by decide⟩

/-- C10 (amended): the positive-quantity invariant is established or preserved
by every in-memory cart operation — `add_to_cart` with quantity ≥ 1,
`remove_from_cart`, `update_quantity` (which removes instead of storing a
quantity ≤ 0), and clearing — while `cart_load` preserves it only under the
extra assumption that the persisted mapping already satisfies it, because it
performs no validation. -/
theorem cart_wf_preserved (items : List (String × Int)) (p : Product) (q : Int)
    (u : String) (qs : Int) (products : List Product)
    (file : Option (Option (List (String × Int)))) :
    (cart_wf items → 1 ≤ q → cart_wf (add_to_cart items p q).2) ∧
    (cart_wf items → cart_wf (remove_from_cart items u).2) ∧
    (cart_wf items → cart_wf (update_quantity items u qs products).2) ∧
    cart_wf ([] : List (String × Int)) ∧
    (cart_wf items → (∀ m, file = some (some m) → cart_wf m) →
      cart_wf (cart_load items file)) := by
  refine ⟨fun hwf hq => cart_wf_add_to_cart items p q hwf hq,
    fun hwf => cart_wf_remove_from_cart items u hwf,
    fun hwf => cart_wf_update_quantity items u qs products hwf,
    ?_, ?_⟩
  · intro kv hkv
    cases hkv
  · intro hwf hm
    cases file with
    | none => exact hwf
    | some f =>
      cases f with
      | none =>
        intro kv hkv
        cases hkv
      | some m => exact hm m rfl

/-- Witness for C10 (amended): adding 2 laptops to an empty cart yields a cart
whose entries all have quantity ≥ 1. -/
theorem cart_wf_preserved_witness :
    cart_wf (add_to_cart [] sampleLap 2).2 :=
  (cart_wf_preserved [] sampleLap 2 "1111" 1 [] none).1
    (by intro kv hkv; cases hkv) (by decide)
